import Mathlib

/-!
Verification of the leobrain crawler backend against its specification.

The Python sources are shallowly embedded: pure helpers become Lean
functions, stateful components (the APScheduler wrapper, the storage
pipeline, the scheduler manager) become explicit state-passing functions,
and external-library calls (APScheduler trigger construction, feedparser,
dateutil, Prefect flow execution) are modelled as value records or
explicit inputs, as noted at each definition.
-/

namespace Leobrain

/-! ## Python dict helpers

The Python sources use plain dicts keyed by strings.  We model a dict of
booleans as an association list with last-write-wins update and
`dict.get(key, default)` lookup. -/

/-- Lookup with default, modelling Python `d.get(k, dflt)` on a dict. -/
def dget (d : List (String × Bool)) (k : String) (dflt : Bool) : Bool :=
  match d with
  | [] => dflt
  | (a, b) :: t => if a = k then b else dget t k dflt

/-- Update, modelling Python `d[k] = v`: the new binding shadows any
older binding for the same key. -/
def dset (d : List (String × Bool)) (k : String) (v : Bool) : List (String × Bool) :=
  (k, v) :: d

namespace Scheduler

/-! ## Embedding of `src/backend/crawlers/core/scheduler.py`

`APSchedulerScheduler` keeps two dicts: `jobs` (job id to APScheduler
job handle; we keep only the registered ids) and `running_tasks` (job id
to running flag).  The APScheduler trigger objects (`CronTrigger`,
`IntervalTrigger`, `DateTrigger`) belong to the external APScheduler
library; they are modelled as value records, so constructing one always
succeeds.  Only the dispatch and validation logic written in
`scheduler.py` itself is embedded. -/

/-- Value record for the external `apscheduler.triggers.cron.CronTrigger`
constructed from the five fields of a cron string. -/
structure CronFields where
  minute : String
  hour : String
  day : String
  month : String
  day_of_week : String
deriving DecidableEq

/-- Trigger object produced by the trigger-selection code of
`APSchedulerScheduler.add_job`. -/
inductive TriggerObj where
  /-- Cron trigger built from a five-field cron string. -/
  | cronStr (fields : CronFields)
  /-- Cron trigger built from keyword arguments when the `cron` kwarg is
  not a string. -/
  | cronKwargs
  /-- Interval trigger built from keyword arguments. -/
  | interval
  /-- Date trigger for one-shot execution at `run_date`. -/
  | date
deriving DecidableEq

/-- Value passed as the `cron` keyword argument of `add_job`: a Python
string, or any non-string value (a dict, or absent, i.e. `None`). -/
inductive CronArg where
  | str (s : String)
  | nonStr
deriving DecidableEq

/-- Whitespace splitter, modelling Python `str.split()` with no
arguments: split on runs of whitespace and drop empty fields.  Written
as a structural one-pass scan so that it evaluates in the kernel. -/
def fieldsAux : List Char → List Char → List (List Char)
  | acc, [] => if acc.isEmpty then [] else [acc.reverse]
  | acc, c :: cs =>
    if c.isWhitespace then
      if acc.isEmpty then fieldsAux [] cs else acc.reverse :: fieldsAux [] cs
    else fieldsAux (c :: acc) cs

/-- Python `expr.split()` for a cron string. -/
def pySplit (s : String) : List String :=
  (fieldsAux [] s.data).map (fun cs => String.mk cs)

/-- Trigger-selection logic of `APSchedulerScheduler.add_job`
(scheduler.py): a cron string must split into exactly five fields,
otherwise `ValueError("Invalid cron expression: ...")`; a non-string
`cron` kwarg goes to the `CronTrigger(**kwargs)` branch; `interval` and
`date` build their trigger from kwargs; any other trigger name raises
`ValueError("Unknown trigger type: ...")`.  Errors are returned as
`Except.error` with the message text. -/
def buildTrigger (trigger : String) (cron : CronArg) : Except String TriggerObj :=
  if trigger = "cron" then
    match cron with
    | .str expr =>
      match pySplit expr with
      | [m, h, d, mo, dw] => .ok (.cronStr ⟨m, h, d, mo, dw⟩)
      | _ => .error ("Invalid cron expression: " ++ expr)
    | .nonStr => .ok .cronKwargs
  else if trigger = "interval" then .ok .interval
  else if trigger = "date" then .ok .date
  else .error ("Unknown trigger type: " ++ trigger)

/-- State of an `APSchedulerScheduler` instance: the keys of `self.jobs`
and the dict `self.running_tasks`. -/
structure State where
  jobs : List String
  running_tasks : List (String × Bool)
deriving DecidableEq

/-- Fresh scheduler state, from `APSchedulerScheduler.__init__`. -/
def State.init : State := ⟨[], []⟩

/-- Python truthiness of the optional `job_id` argument: `None` and the
empty string are falsy. -/
def jobIdTruthy : Option String → Bool
  | none => false
  | some id => id ≠ ""

/-- Registration effect of `add_job` on the scheduler state: after the
APScheduler job is created, `if job_id: self.jobs[job_id] = job;
self.running_tasks[job_id] = False`. -/
def addJobRegister (s : State) (jobId : Option String) : State :=
  match jobId with
  | some id =>
    if id ≠ "" then ⟨id :: s.jobs, dset s.running_tasks id false⟩ else s
  | none => s

/-- Full effect of `APSchedulerScheduler.add_job`: build the trigger
object (raising `ValueError` on a bad cron string or unknown trigger
name), then register the wrapped function and initialise its running
flag to false.  Returns the new state and the trigger object used. -/
def add_job (s : State) (trigger : String) (jobId : Option String) (cron : CronArg) :
    Except String (State × TriggerObj) :=
  match buildTrigger trigger cron with
  | .error e => .error e
  | .ok t => .ok (addJobRegister s jobId, t)

/-- Embedding of `APSchedulerScheduler.is_running`:
`return self.running_tasks.get(job_id, False)`. -/
def is_running (s : State) (jobId : String) : Bool :=
  dget s.running_tasks jobId false

/-- Whether the wrapped job function returns normally or raises; the
`finally` clause of the wrapper runs in both cases. -/
inductive Outcome where
  | ok
  | exn
deriving DecidableEq

/-- Entry effect of the wrapper (`tracked_func` / `async_wrapper` in
`add_job`): `if job_id: self.running_tasks[job_id] = True`. -/
def wrapperEnter (s : State) (jobId : Option String) : State :=
  match jobId with
  | some id => if id ≠ "" then { s with running_tasks := dset s.running_tasks id true } else s
  | none => s

/-- Exit effect of the wrapper, its `finally` clause:
`if job_id: self.running_tasks[job_id] = False`. -/
def wrapperExit (s : State) (jobId : Option String) : State :=
  match jobId with
  | some id => if id ≠ "" then { s with running_tasks := dset s.running_tasks id false } else s
  | none => s

/-- One complete execution of the wrapped job function: the wrapper sets
the running flag, the body runs with some outcome, and the `finally`
clause clears the flag whatever the outcome was. -/
def trackedRun (s : State) (jobId : Option String) (out : Outcome) : State × Outcome :=
  (wrapperExit (wrapperEnter s jobId) jobId, out)

/-- Events observable on one scheduler instance: a successful
registration through `add_job` with a truthy job id, and the entry and
exit of a registered job's wrapper. -/
inductive Event where
  | register (id : String)
  | beginRun (id : String)
  | endRun (id : String)
deriving DecidableEq

/-- Apply one event to the scheduler state. -/
def applyEvent (s : State) : Event → State
  | .register id => addJobRegister s (some id)
  | .beginRun id => wrapperEnter s (some id)
  | .endRun id => wrapperExit s (some id)

/-- Run a trace of events from a state. -/
def runEvents (s : State) (evs : List Event) : State :=
  evs.foldl applyEvent s

/-- Well-formedness of a trace relative to a set of already-registered
ids: the wrapper of a job only exists after `add_job` registered that
job, so `beginRun` and `endRun` may only mention registered ids. -/
def wfFrom (reg : List String) : List Event → Bool
  | [] => true
  | .register id :: rest => wfFrom (id :: reg) rest
  | .beginRun id :: rest => reg.contains id && wfFrom reg rest
  | .endRun id :: rest => reg.contains id && wfFrom reg rest

/-- Whether a trace never registers the given id. -/
def neverRegisters (evs : List Event) (id : String) : Bool :=
  evs.all (fun e => match e with
    | .register i => i ≠ id
    | _ => true)

end Scheduler

namespace Parser

/-! ## Embedding of `Parser.clean_text` from `src/backend/crawlers/core/parser.py`

The source parses the HTML with selectolax (an HTML5 parser), removes
the `script` and `style` subtrees, and returns `body.text(separator=' ',
strip=True)`.  selectolax walks the text nodes and, for each one,
appends its stripped text followed by the separator — the separator
follows every text node, so a non-empty result always carries a
trailing space (its own test suite shows outputs such as a final
`p1 p2 text` with a trailing space).  The embedding models this text
extraction directly on the character list: markup (tags, closing tags,
declarations) is skipped; the raw content of `script` and `style`
(removed by decompose) and of `title` (title text belongs to the
document head while the source reads only `tree.body` text) never
contributes; character references — decimal and hexadecimal numeric
references and a representative subset of the HTML5 named table, whose
full set of over two thousand entries is a declared modelling
boundary — are decoded inside text as the HTML5 tokenizer decodes them
into DOM text nodes; and each text node's stripped content is emitted
followed by the single-space separator.  The `try`/`except` fallback of
the source (return the input unchanged when text extraction throws) is
not modelled: selectolax synthesizes a body for ordinary input, and no
claim depends on the fallback.  Recursion is driven by an explicit fuel
argument equal to the input length so that every function evaluates
inside the kernel. -/

/-- Leading characters are not whitespace (true for the empty list). -/
def leadOk : List Char → Bool
  | [] => true
  | c :: _ => !c.isWhitespace

/-- Trailing characters are not whitespace (true for the empty list). -/
def noTrailWs : List Char → Bool
  | [] => true
  | [c] => !c.isWhitespace
  | _ :: rest => noTrailWs rest

/-- Drop leading whitespace. -/
def dropLead (cs : List Char) : List Char := cs.dropWhile Char.isWhitespace

/-- Drop trailing whitespace. -/
def dropTrail : List Char → List Char
  | [] => []
  | c :: rest =>
    let r := dropTrail rest
    if r.isEmpty && c.isWhitespace then [] else c :: r

/-- Strip surrounding whitespace from one text node, as `strip=True`
does in `body.text(separator=' ', strip=True)`. -/
def stripL (cs : List Char) : List Char := dropTrail (dropLead cs)

/-- Hexadecimal digit test for numeric character references. -/
def isHexDigit (c : Char) : Bool :=
  c.isDigit || ('a' ≤ c && c ≤ 'f') || ('A' ≤ c && c ≤ 'F')

/-- Value of a hexadecimal digit. -/
def hexDigitVal (c : Char) : Nat :=
  if c.isDigit then c.toNat - 48
  else if 'a' ≤ c && c ≤ 'f' then c.toNat - 87
  else c.toNat - 55

/-- Value of a run of decimal digits. -/
def decRefValue (ds : List Char) : Nat :=
  ds.foldl (fun a c => 10 * a + (c.toNat - 48)) 0

/-- Value of a run of hexadecimal digits. -/
def hexRefValue (ds : List Char) : Nat :=
  ds.foldl (fun a c => 16 * a + hexDigitVal c) 0

/-- Decode the remainder of a numeric character reference (after the
leading hash): decimal digits, or an x/X marker followed by hexadecimal
digits, terminated by a semicolon. -/
def matchNumeric (cs : List Char) : Option (Char × List Char) :=
  match cs with
  | 'x' :: rest =>
    match rest.takeWhile isHexDigit, rest.dropWhile isHexDigit with
    | [], _ => none
    | ds, ';' :: rest2 => some (Char.ofNat (hexRefValue ds), rest2)
    | _, _ => none
  | 'X' :: rest =>
    match rest.takeWhile isHexDigit, rest.dropWhile isHexDigit with
    | [], _ => none
    | ds, ';' :: rest2 => some (Char.ofNat (hexRefValue ds), rest2)
    | _, _ => none
  | _ =>
    match cs.takeWhile Char.isDigit, cs.dropWhile Char.isDigit with
    | [], _ => none
    | ds, ';' :: rest2 => some (Char.ofNat (decRefValue ds), rest2)
    | _, _ => none

/-- Decode one character reference at the start of the list, returning
the decoded character and the rest: numeric references, and a
representative subset of the HTML5 named table (the full table of over
two thousand names is a declared modelling boundary; every entry here
decodes exactly as the HTML5 tokenizer does).  An unrecognized
ampersand stays literal. -/
def matchEntity : List Char → Option (Char × List Char)
  | '#' :: rest => matchNumeric rest
  | 'a' :: 'm' :: 'p' :: ';' :: rest => some ('&', rest)
  | 'a' :: 'p' :: 'o' :: 's' :: ';' :: rest => some (Char.ofNat 39, rest)
  | 'l' :: 't' :: ';' :: rest => some ('<', rest)
  | 'l' :: 's' :: 'q' :: 'u' :: 'o' :: ';' :: rest => some (Char.ofNat 0x2018, rest)
  | 'l' :: 'd' :: 'q' :: 'u' :: 'o' :: ';' :: rest => some (Char.ofNat 0x201C, rest)
  | 'l' :: 'a' :: 'q' :: 'u' :: 'o' :: ';' :: rest => some (Char.ofNat 171, rest)
  | 'g' :: 't' :: ';' :: rest => some ('>', rest)
  | 'q' :: 'u' :: 'o' :: 't' :: ';' :: rest => some ('"', rest)
  | 'n' :: 'b' :: 's' :: 'p' :: ';' :: rest => some (Char.ofNat 160, rest)
  | 'n' :: 'd' :: 'a' :: 's' :: 'h' :: ';' :: rest => some (Char.ofNat 0x2013, rest)
  | 'm' :: 'd' :: 'a' :: 's' :: 'h' :: ';' :: rest => some (Char.ofNat 0x2014, rest)
  | 'm' :: 'i' :: 'd' :: 'd' :: 'o' :: 't' :: ';' :: rest => some (Char.ofNat 183, rest)
  | 'h' :: 'e' :: 'l' :: 'l' :: 'i' :: 'p' :: ';' :: rest => some (Char.ofNat 0x2026, rest)
  | 'r' :: 's' :: 'q' :: 'u' :: 'o' :: ';' :: rest => some (Char.ofNat 0x2019, rest)
  | 'r' :: 'd' :: 'q' :: 'u' :: 'o' :: ';' :: rest => some (Char.ofNat 0x201D, rest)
  | 'r' :: 'a' :: 'q' :: 'u' :: 'o' :: ';' :: rest => some (Char.ofNat 187, rest)
  | 'r' :: 'e' :: 'g' :: ';' :: rest => some (Char.ofNat 174, rest)
  | 'c' :: 'o' :: 'p' :: 'y' :: ';' :: rest => some (Char.ofNat 169, rest)
  | 'c' :: 'e' :: 'n' :: 't' :: ';' :: rest => some (Char.ofNat 162, rest)
  | 't' :: 'r' :: 'a' :: 'd' :: 'e' :: ';' :: rest => some (Char.ofNat 0x2122, rest)
  | 't' :: 'i' :: 'm' :: 'e' :: 's' :: ';' :: rest => some (Char.ofNat 215, rest)
  | 'd' :: 'e' :: 'g' :: ';' :: rest => some (Char.ofNat 176, rest)
  | 'd' :: 'i' :: 'v' :: 'i' :: 'd' :: 'e' :: ';' :: rest => some (Char.ofNat 247, rest)
  | 'p' :: 'o' :: 'u' :: 'n' :: 'd' :: ';' :: rest => some (Char.ofNat 163, rest)
  | 'p' :: 'l' :: 'u' :: 's' :: 'm' :: 'n' :: ';' :: rest => some (Char.ofNat 177, rest)
  | 'p' :: 'a' :: 'r' :: 'a' :: ';' :: rest => some (Char.ofNat 182, rest)
  | 'e' :: 'u' :: 'r' :: 'o' :: ';' :: rest => some (Char.ofNat 0x20AC, rest)
  | 'y' :: 'e' :: 'n' :: ';' :: rest => some (Char.ofNat 165, rest)
  | 's' :: 'e' :: 'c' :: 't' :: ';' :: rest => some (Char.ofNat 167, rest)
  | 'b' :: 'u' :: 'l' :: 'l' :: ';' :: rest => some (Char.ofNat 0x2022, rest)
  | _ => none

/-- Decode character references in a text run, as the HTML parser does
when it builds DOM text nodes.  An ampersand that does not begin a
recognized reference stays literal. -/
def decodeEntitiesAux : Nat → List Char → List Char
  | 0, cs => cs
  | fuel + 1, cs =>
    match cs with
    | [] => []
    | c :: rest =>
      if c = '&' then
        match matchEntity rest with
        | some (d, rest') => d :: decodeEntitiesAux fuel rest'
        | none => '&' :: decodeEntitiesAux fuel rest
      else c :: decodeEntitiesAux fuel rest

/-- Decode character references in a text run. -/
def decodeEntities (cs : List Char) : List Char :=
  decodeEntitiesAux cs.length cs

/-- Lower-cased tag name at the start of a tag body. -/
def tagName : List Char → List Char
  | [] => []
  | c :: cs => if c.isAlpha then c.toLower :: tagName cs else []

/-- Skip a tag: drop everything through the first `>`. -/
def skipTag : List Char → List Char
  | [] => []
  | c :: rest => if c = '>' then rest else skipTag rest

/-- Whether the list starts with the closing tag of the named element
(case-insensitively). -/
def closeAhead (name : List Char) (cs : List Char) : Bool :=
  ('<' :: '/' :: name).isPrefixOf (cs.map Char.toLower)

/-- Skip the raw content of a `script`, `style` or `title` element:
drop everything up to its closing tag, then the closing tag itself.
The `script` and `style` subtrees are removed by `clean_text` before
text extraction; `title` text sits in the document head while the
source reads only the body's text. -/
def skipRaw (name : List Char) : List Char → List Char
  | [] => []
  | c :: rest =>
    if closeAhead name (c :: rest) then skipTag (c :: rest) else skipRaw name rest

/-- Split the document into its raw text chunks, skipping markup and
the content of `script`/`style` (decomposed) and `title` (head-only)
elements.  A `<` not followed by a tag opener (a letter, `/`, `!` or
`?`) is literal text, as in HTML5 tokenization.  An empty chunk arises
between adjacent tags and corresponds to no text node; `textPieces`
drops it.  `acc` holds the current chunk reversed; the fuel, chosen as
the input length by `clean_text`, bounds the recursion so the
definition evaluates in the kernel. -/
def chunksAux : Nat → List Char → List Char → List (List Char)
  | 0, acc, rest => [acc.reverse ++ rest]
  | fuel + 1, acc, cs =>
    match cs with
    | [] => [acc.reverse]
    | c :: rest =>
      if c = '<' then
        match rest with
        | [] => [('<' :: acc).reverse]
        | d :: _ =>
          if d.isAlpha then
            let name := tagName rest
            let after := skipTag rest
            if name = "script".data ∨ name = "style".data ∨ name = "title".data then
              acc.reverse :: chunksAux fuel [] (skipRaw name after)
            else
              acc.reverse :: chunksAux fuel [] after
          else if d = '/' ∨ d = '!' ∨ d = '?' then
            acc.reverse :: chunksAux fuel [] (skipTag rest)
          else
            chunksAux fuel ('<' :: acc) rest
      else chunksAux fuel (c :: acc) rest

/-- Emit each text node's content followed by the single-space
separator, as `body.text(separator=' ', strip=True)` does: selectolax
appends the separator after every text node, so a non-empty result
always ends in one separator. -/
def sepAfterEach : List (List Char) → List Char
  | [] => []
  | x :: t => x ++ ' ' :: sepAfterEach t

/-- The document's text nodes, each decoded and stripped: the raw text
chunks between markup, with the empty chunks (which stand between
adjacent tags and are no text nodes) dropped.  A whitespace-only text
node is a real node — it strips to nothing but still contributes its
separator. -/
def textPieces (cs : List Char) : List (List Char) :=
  ((chunksAux cs.length [] cs).filter (fun ch => !ch.isEmpty)).map
    (fun ch => stripL (decodeEntities ch))

/-- Embedding of `Parser.clean_text`: parse the HTML, drop `script` and
`style` subtrees, and return the body text with each text node stripped
and followed by the single-space separator. -/
def clean_text (html : String) : String :=
  String.mk (sepAfterEach (textPieces html.data))

/-- A string free of markup significance: it contains neither a tag
opener nor an ampersand, so re-parsing it as HTML yields a single text
node and decodes no character reference. -/
def noMarkup (s : String) : Bool :=
  s.data.all (fun c => !(c == '<') && !(c == '&'))

end Parser

/-! ## Request and Item value records

`crawlers/core/types.py` is not part of the sources at hand; the records
are modelled from the spec. -/

/-- Metadata values appearing in request and item metadata mappings are
strings or booleans in the code at hand. -/
inductive MetaVal where
  | str (s : String)
  | bool (b : Bool)
deriving DecidableEq

/-- Modelled from the spec: a Request is a value record with an absolute
URL, a method defaulting to GET, and a metadata mapping of string keys to
spider-private hints; it stores exactly what its constructor is given and
is immutable after construction.  Headers, body and the render flag are
not used by any claim and are omitted. -/
structure Request where
  url : String
  method : String := "GET"
  metadata : List (String × MetaVal) := []
deriving DecidableEq

/-- Modelled from the spec: an Item is the normalized crawled record with
URL (the dedup key), title, cleaned body, source name, optional author,
optional published timestamp and a metadata mapping; it stores exactly
what its constructor is given.  The published timestamp is kept as the
raw date string chosen by the spider; the subsequent `dateutil` parse is
an external-library call that no claim depends on. -/
structure Item where
  url : String
  title : String
  body : String
  source : String
  author : Option String := none
  published_raw : Option String := none
  metadata : List (String × MetaVal) := []
deriving DecidableEq

namespace RSS

/-! ## Embedding of `src/backend/crawlers/spiders/rss_spider.py`

`feedparser` is an external library; its output is modelled as a `Feed`
value (a list of entries plus the feed-level title and link), and
`RSSSpider.parse` is embedded as a function of that parsed feed.  An
absent attribute of an entry (Python `hasattr`) is modelled as `none`,
and `entry.get(key, default)` as `Option.getD`. -/

/-- One feedparser entry as read by `RSSSpider.parse`: `link` and
`title` are accessed with `entry.get`, the others with `hasattr`.  Each
element of `content` carries an optional `value` attribute. -/
structure FeedEntry where
  link : Option String := none
  title : Option String := none
  content : List (Option String) := []
  summary : Option String := none
  description : Option String := none
  published : Option String := none
  updated : Option String := none
  author : Option String := none
  author_detail_name : Option String := none
deriving DecidableEq

/-- A parsed feed: `feed.entries` plus `feed.feed.get('title', '')` and
`feed.feed.get('link', '')`. -/
structure Feed where
  entries : List FeedEntry := []
  feed_title : String := ""
  feed_link : String := ""
deriving DecidableEq

/-- Spider configuration held by `RSSSpider.__init__`. -/
structure RSSSpider where
  source_name : String
  feed_url : String
  max_items : Option Nat := none
  fetch_full_content : Bool := false
deriving DecidableEq

/-- Embedding of `RSSSpider._extract_content`: return the `value` of the
first content element that has one; otherwise the summary, otherwise the
description, otherwise the empty string. -/
def extract_content (e : FeedEntry) : String :=
  match e.content.filterMap id with
  | v :: _ => v
  | [] =>
    match e.summary with
    | some s => s
    | none => e.description.getD ""

/-- Embedding of `RSSSpider.seeds`: a single GET request for the feed
URL whose metadata carries only the source name. -/
def RSSSpider.seeds (sp : RSSSpider) : List Request :=
  [{ url := sp.feed_url, method := "GET",
     metadata := [("source", .str sp.source_name)] }]

/-- The body the per-entry loop of `RSSSpider.parse` assigns to the
item: `_extract_content`, cleaned when non-empty (Python
`if body: body = self.parser.clean_text(body)`). -/
def entryBody (e : FeedEntry) : String :=
  let body0 := extract_content e
  if body0 ≠ "" then Parser.clean_text body0 else body0

/-- The URL the loop assigns: `entry.get('link', '')`. -/
def entryUrl (e : FeedEntry) : String := e.link.getD ""

/-- The item built for one entry by the loop body of `RSSSpider.parse`. -/
def itemOfEntry (sp : RSSSpider) (feed : Feed) (e : FeedEntry) : Item :=
  { url := entryUrl e
    title := e.title.getD "No title"
    body := entryBody e
    source := sp.source_name
    author :=
      match e.author with
      | some a => some a
      | none => e.author_detail_name
    published_raw :=
      match e.published with
      | some p => some p
      | none => e.updated
    metadata := [("feed_title", .str feed.feed_title),
                 ("feed_link", .str feed.feed_link)] }

/-- The follow-up requests the loop body appends for one entry: a single
request tagged `fetch_full` when full-content fetching is enabled, the
entry has a link, and the emitted body is shorter than 500 characters. -/
def followupsOfEntry (sp : RSSSpider) (e : FeedEntry) : List Request :=
  if sp.fetch_full_content ∧ entryUrl e ≠ "" ∧ (entryBody e).length < 500 then
    [{ url := entryUrl e, method := "GET",
       metadata := [("source", .str sp.source_name), ("fetch_full", .bool true)] }]
  else []

/-- The entry slice processed by `RSSSpider.parse`:
`feed.entries[:self.max_items] if self.max_items else feed.entries`.
Both `None` and `0` are falsy, so slicing happens only for a positive
`max_items`. -/
def entriesSlice (sp : RSSSpider) (feed : Feed) : List FeedEntry :=
  match sp.max_items with
  | some n => if n = 0 then feed.entries else feed.entries.take n
  | none => feed.entries

/-- Embedding of `RSSSpider.parse` on the parsed feed: the loop appends
one item per processed entry and the follow-up requests after it.  The
per-entry `try`/`except` skips an entry only when processing it raises;
the embedded operations are total, and in particular an entry missing
both link and title raises nothing (`entry.get` supplies defaults). -/
def RSSSpider.parse (sp : RSSSpider) (feed : Feed) : List Item × List Request :=
  (entriesSlice sp feed).foldl
    (fun acc e =>
      (acc.1 ++ [itemOfEntry sp feed e], acc.2 ++ followupsOfEntry sp e))
    ([], [])

end RSS

namespace SchedulerManager

/-! ## Embedding of `src/backend/workers/scheduler_manager.py`

`trigger_manual_crawl` reads the module-level scheduler singleton (an
`Option` of a scheduler state here), the loaded site configurations (we
keep only their keys), and the current timestamp string
(`datetime.now().strftime` is external; the formatted string is passed
in). -/

/-- The three failures `trigger_manual_crawl` can raise:
`RuntimeError("Scheduler not started")`,
`RuntimeError("... is already running")`, and
`ValueError("Site ... not found")`. -/
inductive TMCError where
  | schedulerNotStarted
  | alreadyRunning
  | siteNotFound
deriving DecidableEq

/-- Embedding of `scheduler_manager.trigger_manual_crawl`.  The source
checks, in this order: the singleton is set; the scheduled job
`crawl_<site>` is not running; the site is among the loaded configs.  It
then registers a one-shot date-trigger job under
`manual_crawl_<site>_<timestamp>` and returns that id.  The
`_scheduler.add_job(..., trigger='date', job_id=manual_job_id, ...)`
call always succeeds (see `add_job_date` below), so its effect is
written directly as `addJobRegister`. -/
def trigger_manual_crawl (sched : Option Scheduler.State) (configs : List String)
    (site ts : String) : Except TMCError (String × Scheduler.State) :=
  match sched with
  | none => .error .schedulerNotStarted
  | some s =>
    if Scheduler.is_running s ("crawl_" ++ site) then .error .alreadyRunning
    else if configs.contains site then
      let jid := "manual_crawl_" ++ site ++ "_" ++ ts
      .ok (jid, Scheduler.addJobRegister s (some jid))
    else .error .siteNotFound

end SchedulerManager

namespace PrefectManager

/-! ## Embedding of `workers/prefect_manager.py` and
`app/api/v1/crawlers.py`

The Prefect flow execution is an external service call; its result is an
input of the embedding: `some id` when the flow ran and produced a flow
run id, `none` when it raised or produced no id (both end in a
`RuntimeError` in the source).  Site configurations are kept as their
list of keys.  The set of sites with a crawl currently in flight is
carried through the embedding as explicit state so that theorems can
relate the response to it; the source never consults it. -/

/-- Exceptions of `prefect_manager.trigger_manual_crawl` as caught by
the API handler: `ValueError` becomes 404, anything else 500. -/
inductive PMError where
  | valueErr (msg : String)
  | runtimeErr (msg : String)
deriving DecidableEq

/-- Embedding of `prefect_manager.trigger_manual_crawl`: unknown site
raises `ValueError("Site ... not found")`; otherwise the flow is run and
its id returned, a missing id or a flow failure raising `RuntimeError`. -/
def trigger_manual_crawl (configs : List String) (site : String)
    (flowResult : Option String) : Except PMError String :=
  if configs.contains site then
    match flowResult with
    | some fid => .ok fid
    | none => .error (.runtimeErr "Failed to get flow run ID from flow execution")
  else .error (.valueErr ("Site " ++ site ++ " not found"))

/-- Success body of `POST /crawlers/sites/.../crawl`. -/
structure CrawlBody where
  message : String
  site : String
  flow_run_id : String
deriving DecidableEq

/-- HTTP result of the crawl-trigger endpoint: a 200 response with the
success body, or an error status with a detail string. -/
inductive HttpResult where
  | success (body : CrawlBody)
  | failure (status : Nat) (detail : String)
deriving DecidableEq

/-- Status code of an HTTP result (success is 200). -/
def statusOf : HttpResult → Nat
  | .success _ => 200
  | .failure st _ => st

/-- Embedding of the API handler `trigger_crawl` in
`app/api/v1/crawlers.py`: call `prefect_manager.trigger_manual_crawl`,
turn `ValueError` into a 404, any other exception into a 500, and wrap a
successful flow run id in the response body.  `runningSites` is the set
of sites with a crawl in flight; neither the handler nor the manager
reads it. -/
def trigger_crawl (configs : List String) (runningSites : List String)
    (site : String) (flowResult : Option String) : HttpResult :=
  let _ := runningSites
  match trigger_manual_crawl configs site flowResult with
  | .ok fid => .success ⟨"Crawl task started for " ++ site, site, fid⟩
  | .error (.valueErr m) => .failure 404 m
  | .error (.runtimeErr m) => .failure 500 m

end PrefectManager

namespace Pipelines

/-! ## Storage pipeline

`crawlers/core/pipelines.py` is not among the sources at hand (only its
unit tests are), so the pipeline is modelled from the spec. -/

/-- Modelled from the spec: a content record of the relational store,
with the item's URL (the table-wide dedup key), the version-4
`content_uuid` allocated at ingest, the source, the title, and the
`body_ref` object name of the form `<source>/<content_uuid>.txt`. -/
structure ContentRow where
  content_uuid : String
  source : String
  url : String
  title : String
  body_ref : String
deriving DecidableEq

/-- Modelled from the spec: the two stores the pipeline writes —
the relational rows and the object store mapping object names to body
text. -/
structure Stores where
  rows : List ContentRow
  objects : List (String × String)
deriving DecidableEq

/-- Both stores empty. -/
def Stores.empty : Stores := ⟨[], []⟩

/-- Whether the relational store already has a row with the URL — the
dedup query run before writing. -/
def hasUrl (rows : List ContentRow) (url : String) : Bool :=
  rows.any (fun r => r.url == url)

/-- Outcome of the two-store write attempt for one item: the object-store
PUT of step 3 may fail, the relational insert of step 4 may fail (a
race on the unique URL column or another database error), or both
succeed. -/
inductive WriteOutcome where
  | objectPutFails
  | dbInsertFails
  | committed
deriving DecidableEq

/-- Modelled from the spec: `StoragePipeline.process_item(item) -> bool`.
Query the relational store for the item's URL and return false without
writing when a row exists.  Otherwise allocate `content_uuid` (the
version-4 uuid is external randomness, passed in), compose
`body_ref = source/<uuid>.txt`, put the body, insert the row, commit.
On a step-3 failure no row is created; on a step-4 failure the
transaction is rolled back and the object deleted best-effort (the
model takes the delete as succeeding, which no claim depends on); both
failures return false. -/
def process_item (st : Stores) (it : Item) (uuid : String) (w : WriteOutcome) :
    Stores × Bool :=
  if hasUrl st.rows it.url then (st, false)
  else
    match w with
    | .objectPutFails => (st, false)
    | .dbInsertFails => (st, false)
    | .committed =>
      let ref := it.source ++ "/" ++ uuid ++ ".txt"
      ({ rows := ⟨uuid, it.source, it.url, it.title, ref⟩ :: st.rows,
         objects := (ref, it.body) :: st.objects }, true)

/-- One call description: the item together with the allocated uuid and
the write outcome of that call. -/
structure Call where
  item : Item
  uuid : String
  outcome : WriteOutcome
deriving DecidableEq

/-- Run a finite sequence of `process_item` calls, threading the stores. -/
def processSeq (st : Stores) (calls : List Call) : Stores :=
  calls.foldl (fun st c => (process_item st c.item c.uuid c.outcome).1) st

/-- Number of content rows carrying a URL. -/
def countUrl (rows : List ContentRow) (url : String) : Nat :=
  rows.countP (fun r => r.url == url)

end Pipelines

/-! ## Helper theorems and claim theorems -/

theorem dget_dset_self (d : List (String × Bool)) (k : String) (v dflt : Bool) :
    dget (dset d k v) k dflt = v := by
  simp [dget, dset]

theorem dget_dset_ne (d : List (String × Bool)) (k k' : String) (v dflt : Bool)
    (h : k' ≠ k) : dget (dset d k v) k' dflt = dget d k' dflt := by
  simp [dget, dset, Ne.symm h]

namespace Scheduler

/-- A date-trigger `add_job` never raises: the trigger-selection code
builds a `DateTrigger` from `run_date` unconditionally, and the call
reduces to the registration effect. -/
theorem add_job_date (s : State) (jobId : Option String) :
    add_job s "date" jobId .nonStr =
      .ok (addJobRegister s jobId, .date) := rfl

theorem buildTrigger_cron_str_eq (expr : String) :
    buildTrigger "cron" (.str expr) =
      (match pySplit expr with
       | [m, h, d, mo, dw] => Except.ok (.cronStr ⟨m, h, d, mo, dw⟩)
       | _ => Except.error ("Invalid cron expression: " ++ expr)) := rfl

/-- A cron string that does not split into five fields is rejected. -/
theorem buildTrigger_cron_str_not5 (expr : String)
    (h : (pySplit expr).length ≠ 5) :
    buildTrigger "cron" (.str expr) =
      .error ("Invalid cron expression: " ++ expr) := by
  rw [buildTrigger_cron_str_eq]
  generalize hl : pySplit expr = l at h
  rcases l with _ | ⟨a, _ | ⟨b, _ | ⟨c, _ | ⟨d, _ | ⟨e, _ | ⟨f, t⟩⟩⟩⟩⟩⟩
  · rfl
  · rfl
  · rfl
  · rfl
  · rfl
  · simp at h
  · rfl

/-- A five-field cron string builds the cron trigger from its fields in
order. -/
theorem buildTrigger_cron_str5 (expr m h d mo dw : String)
    (hs : pySplit expr = [m, h, d, mo, dw]) :
    buildTrigger "cron" (.str expr) = .ok (.cronStr ⟨m, h, d, mo, dw⟩) := by
  rw [buildTrigger_cron_str_eq, hs]

/-- Any trigger name outside cron, interval and date is rejected. -/
theorem buildTrigger_unknown (trigger : String) (cron : CronArg)
    (h1 : trigger ≠ "cron") (h2 : trigger ≠ "interval") (h3 : trigger ≠ "date") :
    buildTrigger trigger cron = .error ("Unknown trigger type: " ++ trigger) := by
  simp [buildTrigger, h1, h2, h3]

theorem is_running_addJobRegister_ne (s : State) (i id : String) (h : id ≠ i) :
    is_running (addJobRegister s (some i)) id = is_running s id := by
  by_cases hi : i = ""
  · simp [addJobRegister, hi]
  · simp [addJobRegister, hi, is_running, dget_dset_ne _ _ _ _ _ h]

theorem is_running_wrapperEnter_ne (s : State) (i id : String) (h : id ≠ i) :
    is_running (wrapperEnter s (some i)) id = is_running s id := by
  by_cases hi : i = ""
  · simp [wrapperEnter, hi]
  · simp [wrapperEnter, hi, is_running, dget_dset_ne _ _ _ _ _ h]

theorem is_running_wrapperExit_ne (s : State) (i id : String) (h : id ≠ i) :
    is_running (wrapperExit s (some i)) id = is_running s id := by
  by_cases hi : i = ""
  · simp [wrapperExit, hi]
  · simp [wrapperExit, hi, is_running, dget_dset_ne _ _ _ _ _ h]

theorem is_running_addJobRegister_self (s : State) (id : String) (h : id ≠ "") :
    is_running (addJobRegister s (some id)) id = false := by
  simp [addJobRegister, h, is_running, dget_dset_self]

/-- A trace that never registers a job id and whose run events all
concern registered ids leaves that id's running flag untouched. -/
theorem is_running_runEvents_untouched (evs : List Event) (reg : List String)
    (s : State) (id : String)
    (hreg : reg.contains id = false)
    (hwf : wfFrom reg evs = true)
    (hnr : neverRegisters evs id = true) :
    is_running (runEvents s evs) id = is_running s id := by
  induction evs generalizing reg s with
  | nil => rfl
  | cons e t ih =>
    cases e with
    | register i =>
      have hnr' : neverRegisters t id = true := by
        simp [neverRegisters] at hnr ⊢
        exact hnr.2
      have hne : id ≠ i := by
        simp [neverRegisters] at hnr
        exact fun hh => hnr.1 hh.symm
      have hwf' : wfFrom (i :: reg) t = true := by
        simpa [wfFrom] using hwf
      have hreg' : (i :: reg).contains id = false := by
        have hbe : (id == i) = false := by simpa using hne
        simp only [List.contains_cons, hbe, Bool.false_or]
        exact hreg
      have := ih (i :: reg) (addJobRegister s (some i)) hreg' hwf' hnr'
      calc is_running (runEvents s (Event.register i :: t)) id
        = is_running (runEvents (addJobRegister s (some i)) t) id := rfl
        _ = is_running (addJobRegister s (some i)) id := this
        _ = is_running s id := is_running_addJobRegister_ne s i id hne
    | beginRun i =>
      have hmem : reg.contains i = true := by
        simp [wfFrom] at hwf
        simpa using hwf.1
      have hne : id ≠ i := by
        intro hh
        rw [hh] at hreg
        rw [hreg] at hmem
        exact Bool.false_ne_true hmem
      have hwf' : wfFrom reg t = true := by
        simp [wfFrom] at hwf
        exact hwf.2
      have hnr' : neverRegisters t id = true := by
        simpa [neverRegisters] using hnr
      have := ih reg (wrapperEnter s (some i)) hreg hwf' hnr'
      calc is_running (runEvents s (Event.beginRun i :: t)) id
        = is_running (runEvents (wrapperEnter s (some i)) t) id := rfl
        _ = is_running (wrapperEnter s (some i)) id := this
        _ = is_running s id := is_running_wrapperEnter_ne s i id hne
    | endRun i =>
      have hmem : reg.contains i = true := by
        simp [wfFrom] at hwf
        simpa using hwf.1
      have hne : id ≠ i := by
        intro hh
        rw [hh] at hreg
        rw [hreg] at hmem
        exact Bool.false_ne_true hmem
      have hwf' : wfFrom reg t = true := by
        simp [wfFrom] at hwf
        exact hwf.2
      have hnr' : neverRegisters t id = true := by
        simpa [neverRegisters] using hnr
      have := ih reg (wrapperExit s (some i)) hreg hwf' hnr'
      calc is_running (runEvents s (Event.endRun i :: t)) id
        = is_running (runEvents (wrapperExit s (some i)) t) id := rfl
        _ = is_running (wrapperExit s (some i)) id := this
        _ = is_running s id := is_running_wrapperExit_ne s i id hne

/-- A cleared running flag stays cleared along any trace whose events
never enter the wrapper of that job id. -/
theorem is_running_false_preserved (evs : List Event) (s : State) (id : String)
    (h0 : is_running s id = false)
    (hnb : ∀ e ∈ evs, e ≠ Event.beginRun id) :
    is_running (runEvents s evs) id = false := by
  induction evs generalizing s with
  | nil => exact h0
  | cons e t ih =>
    have hstep : is_running (applyEvent s e) id = false := by
      cases e with
      | register i =>
        by_cases hi : id = i
        · subst hi
          by_cases hnil : id = ""
          · simpa [applyEvent, addJobRegister, hnil] using h0
          · simp [applyEvent, addJobRegister, hnil, is_running, dget_dset_self]
        · rw [applyEvent, is_running_addJobRegister_ne s i id hi]
          exact h0
      | beginRun i =>
        have hne : id ≠ i := by
          intro hh
          exact (hnb (Event.beginRun i) (by simp)) (by rw [hh])
        rw [applyEvent, is_running_wrapperEnter_ne s i id hne]
        exact h0
      | endRun i =>
        by_cases hi : id = i
        · subst hi
          by_cases hnil : id = ""
          · simpa [applyEvent, wrapperExit, hnil] using h0
          · simp [applyEvent, wrapperExit, hnil, is_running, dget_dset_self]
        · rw [applyEvent, is_running_wrapperExit_ne s i id hi]
          exact h0
    have hrun : runEvents s (e :: t) = runEvents (applyEvent s e) t := rfl
    rw [hrun]
    exact ih (applyEvent s e) hstep (fun e' he' => hnb e' (by simp [he']))

end Scheduler

namespace Parser

theorem leadOk_dropLead (cs : List Char) : leadOk (dropLead cs) = true := by
  induction cs with
  | nil => rfl
  | cons c t ih =>
    by_cases h : c.isWhitespace
    · simpa [dropLead, List.dropWhile_cons, h] using ih
    · simp [dropLead, List.dropWhile_cons, h, leadOk]

theorem dropLead_eq_self (cs : List Char) (h : leadOk cs = true) : dropLead cs = cs := by
  cases cs with
  | nil => rfl
  | cons c t =>
    simp only [leadOk, Bool.not_eq_true'] at h
    simp [dropLead, List.dropWhile_cons, h]

theorem noTrailWs_cons (c : Char) (rest : List Char) (h : rest ≠ []) :
    noTrailWs (c :: rest) = noTrailWs rest := by
  cases rest with
  | nil => exact absurd rfl h
  | cons d t => rfl

theorem noTrailWs_dropTrail (cs : List Char) : noTrailWs (dropTrail cs) = true := by
  induction cs with
  | nil => rfl
  | cons c t ih =>
    by_cases hcond : ((dropTrail t).isEmpty && c.isWhitespace) = true
    · simp [dropTrail, hcond, noTrailWs]
    · have hstep : dropTrail (c :: t) = c :: dropTrail t := by
        simp only [dropTrail]
        rw [if_neg (by simpa using hcond)]
      rw [hstep]
      rcases he : dropTrail t with _ | ⟨d, u⟩
      · rw [he] at hcond
        simp only [List.isEmpty_nil, Bool.true_and] at hcond
        simp [noTrailWs, hcond]
      · rw [noTrailWs_cons c (d :: u) (by simp), ← he]
        exact ih

theorem dropTrail_eq_self (cs : List Char) (h : noTrailWs cs = true) : dropTrail cs = cs := by
  induction cs with
  | nil => rfl
  | cons c t ih =>
    cases t with
    | nil =>
      simp only [noTrailWs, Bool.not_eq_true'] at h
      simp [dropTrail, h]
    | cons d u =>
      have h' : noTrailWs (d :: u) = true := by
        rwa [noTrailWs_cons c (d :: u) (by simp)] at h
      have hdt : dropTrail (d :: u) = d :: u := ih h'
      have hstep : dropTrail (c :: d :: u) =
          if (dropTrail (d :: u)).isEmpty && c.isWhitespace then []
          else c :: dropTrail (d :: u) := rfl
      rw [hstep, hdt]
      simp

theorem leadOk_dropTrail (cs : List Char) (h : leadOk cs = true) :
    leadOk (dropTrail cs) = true := by
  cases cs with
  | nil => rfl
  | cons c t =>
    by_cases hcond : ((dropTrail t).isEmpty && c.isWhitespace) = true
    · simp [dropTrail, hcond, leadOk]
    · have hstep : dropTrail (c :: t) = c :: dropTrail t := by
        simp only [dropTrail]
        rw [if_neg (by simpa using hcond)]
      rw [hstep]
      simpa [leadOk] using h

theorem stripL_eq_self (cs : List Char) (h1 : leadOk cs = true)
    (h2 : noTrailWs cs = true) : stripL cs = cs := by
  rw [stripL, dropLead_eq_self cs h1, dropTrail_eq_self cs h2]

theorem leadOk_stripL (cs : List Char) : leadOk (stripL cs) = true :=
  leadOk_dropTrail _ (leadOk_dropLead cs)

theorem noTrailWs_stripL (cs : List Char) : noTrailWs (stripL cs) = true :=
  noTrailWs_dropTrail _

/-- Decoding is the identity on text without an ampersand. -/
theorem decodeEntitiesAux_no_amp (fuel : Nat) : ∀ cs : List Char,
    cs.length ≤ fuel → cs.all (fun c => !(c == '&')) = true →
    decodeEntitiesAux fuel cs = cs := by
  induction fuel with
  | zero => intro cs _ _; rfl
  | succ n ih =>
    intro cs hf h
    cases cs with
    | nil => rfl
    | cons c rest =>
      rw [List.all_cons, Bool.and_eq_true] at h
      have hc : ¬ (c = '&') := by simpa using h.1
      have hlen : rest.length ≤ n := by
        simp only [List.length_cons] at hf
        omega
      simp only [decodeEntitiesAux]
      rw [if_neg hc, ih rest hlen h.2]

/-- Chunking is the identity (one single text chunk) on text without a
tag opener. -/
theorem chunksAux_no_lt (fuel : Nat) : ∀ (acc cs : List Char),
    cs.length ≤ fuel → cs.all (fun c => !(c == '<')) = true →
    chunksAux fuel acc cs = [acc.reverse ++ cs] := by
  induction fuel with
  | zero =>
    intro acc cs hf _
    rfl
  | succ n ih =>
    intro acc cs hf h
    cases cs with
    | nil => simp [chunksAux]
    | cons c rest =>
      rw [List.all_cons, Bool.and_eq_true] at h
      have hc : ¬ (c = '<') := by simpa using h.1
      have hlen : rest.length ≤ n := by
        simp only [List.length_cons] at hf
        omega
      simp only [chunksAux]
      rw [if_neg hc, ih (c :: acc) rest hlen h.2]
      simp

theorem dropLead_append_of_leadOk (x y : List Char) (hx : x ≠ []) (h : leadOk x = true) :
    dropLead (x ++ y) = x ++ y := by
  cases x with
  | nil => exact absurd rfl hx
  | cons c t =>
    simp only [leadOk, Bool.not_eq_true'] at h
    simp [dropLead, List.cons_append, List.dropWhile_cons, h]

theorem dropTrail_append_ws (x : List Char) (c : Char) (hc : c.isWhitespace = true) :
    dropTrail (x ++ [c]) = dropTrail x := by
  induction x with
  | nil => simp [dropTrail, hc]
  | cons a t ih =>
    have hstep : dropTrail (a :: (t ++ [c])) =
        if (dropTrail (t ++ [c])).isEmpty && a.isWhitespace then []
        else a :: dropTrail (t ++ [c]) := rfl
    have hstep2 : dropTrail (a :: t) =
        if (dropTrail t).isEmpty && a.isWhitespace then [] else a :: dropTrail t := rfl
    rw [List.cons_append, hstep, hstep2, ih]

theorem stripL_idem (cs : List Char) : stripL (stripL cs) = stripL cs :=
  stripL_eq_self _ (leadOk_stripL cs) (noTrailWs_stripL cs)

/-- Appending the separator space to a stripped run and stripping again
recovers the run. -/
theorem stripL_append_space (x : List Char) (hx : stripL x = x) :
    stripL (x ++ [' ']) = x := by
  cases x with
  | nil => decide
  | cons c t =>
    have hlead : leadOk (c :: t) = true := by
      rw [← hx]
      exact leadOk_stripL _
    have htrail : noTrailWs (c :: t) = true := by
      rw [← hx]
      exact noTrailWs_stripL _
    rw [stripL, dropLead_append_of_leadOk (c :: t) [' '] (by simp) hlead,
        dropTrail_append_ws (c :: t) ' ' (by decide),
        dropTrail_eq_self (c :: t) htrail]

theorem mem_of_mem_dropLead (a : Char) (l : List Char) (h : a ∈ dropLead l) : a ∈ l := by
  induction l with
  | nil => exact h
  | cons c t ih =>
    by_cases hc : c.isWhitespace
    · rw [dropLead, List.dropWhile_cons, if_pos hc] at h
      exact List.mem_cons_of_mem c (ih h)
    · rw [dropLead, List.dropWhile_cons, if_neg hc] at h
      exact h

theorem mem_of_mem_dropTrail (a : Char) (l : List Char) (h : a ∈ dropTrail l) : a ∈ l := by
  induction l with
  | nil => exact h
  | cons c t ih =>
    have hstep : dropTrail (c :: t) =
        if (dropTrail t).isEmpty && c.isWhitespace then [] else c :: dropTrail t := rfl
    rw [hstep] at h
    by_cases hcond : ((dropTrail t).isEmpty && c.isWhitespace) = true
    · rw [if_pos hcond] at h
      simp at h
    · rw [if_neg hcond] at h
      rcases List.mem_cons.mp h with h1 | h2
      · exact List.mem_cons.mpr (Or.inl h1)
      · exact List.mem_cons_of_mem c (ih h2)

theorem mem_of_mem_stripL (a : Char) (l : List Char) (h : a ∈ stripL l) : a ∈ l :=
  mem_of_mem_dropLead a l (mem_of_mem_dropTrail a (dropLead l) h)

/-- On markup-free input, `clean_text` reduces to whitespace stripping
followed by the trailing separator: the whole input is the single text
node (when non-empty) and no character reference is decoded. -/
theorem clean_text_of_noMarkup (s : String) (h : noMarkup s = true) :
    clean_text s =
      if s.data.isEmpty then "" else String.mk (stripL s.data ++ [' ']) := by
  simp only [noMarkup] at h
  have hall := List.all_eq_true.mp h
  have hlt : s.data.all (fun c => !(c == '<')) = true := by
    rw [List.all_eq_true]
    intro c hc
    have hcc := hall c hc
    rw [Bool.and_eq_true] at hcc
    exact hcc.1
  have hamp : s.data.all (fun c => !(c == '&')) = true := by
    rw [List.all_eq_true]
    intro c hc
    have hcc := hall c hc
    rw [Bool.and_eq_true] at hcc
    exact hcc.2
  have hchunks : chunksAux s.data.length [] s.data = [s.data] := by
    simpa using chunksAux_no_lt s.data.length [] s.data (le_refl _) hlt
  have hdecode : decodeEntities s.data = s.data :=
    decodeEntitiesAux_no_amp _ _ (le_refl _) hamp
  unfold clean_text textPieces
  rw [hchunks]
  by_cases he : s.data.isEmpty = true
  · rw [if_pos he]
    simp only [List.filter_cons, he, Bool.not_true, Bool.false_eq_true, if_false,
      List.filter_nil, List.map_nil, sepAfterEach]
  · have hef : s.data.isEmpty = false := by
      simpa using he
    rw [if_neg he]
    simp only [List.filter_cons, hef, Bool.not_false, if_true, List.filter_nil,
      List.map_cons, List.map_nil, hdecode, sepAfterEach, List.append_nil]

/-- Markup-free input cleans to markup-free output: stripping keeps a
subset of the characters and the appended separator is a plain space. -/
theorem noMarkup_clean_text_of_noMarkup (s : String) (h : noMarkup s = true) :
    noMarkup (clean_text s) = true := by
  rw [clean_text_of_noMarkup s h]
  by_cases he : s.data.isEmpty = true
  · rw [if_pos he]
    rfl
  · rw [if_neg he]
    rw [noMarkup, List.all_eq_true]
    intro c hc
    have hc' : c ∈ stripL s.data ++ [' '] := hc
    rcases List.mem_append.mp hc' with h1 | h2
    · have hmem := mem_of_mem_stripL c s.data h1
      rw [noMarkup, List.all_eq_true] at h
      exact h c hmem
    · have hsp : c = ' ' := by simpa using h2
      subst hsp
      rfl

theorem leadOk_replicate (n : Nat) : leadOk (List.replicate n 'a') = true := by
  cases n with
  | zero => rfl
  | succ m => rw [List.replicate_succ]; rfl

theorem noTrailWs_replicate (n : Nat) : noTrailWs (List.replicate n 'a') = true := by
  induction n with
  | zero => rfl
  | succ m ih =>
    cases m with
    | zero => rfl
    | succ k =>
      rw [List.replicate_succ, noTrailWs_cons _ _ (by simp [List.replicate_succ])]
      exact ih

theorem noMarkup_replicate (n : Nat) :
    noMarkup (String.mk (List.replicate n 'a')) = true := by
  rw [noMarkup, List.all_eq_true]
  intro c hc
  rw [List.eq_of_mem_replicate hc]
  rfl

/-- On a non-empty markup-free all-letter body, `clean_text` strips
nothing and appends the trailing separator: the emitted body gains one
character. -/
theorem clean_text_replicate (n : Nat) (hn : n ≠ 0) :
    Parser.clean_text (String.mk (List.replicate n 'a')) =
      String.mk (List.replicate n 'a' ++ [' ']) := by
  rw [clean_text_of_noMarkup _ (noMarkup_replicate n)]
  have hne : ((List.replicate n 'a').isEmpty = true) → False := by
    simp [hn]
  rw [if_neg hne, stripL_eq_self _ (leadOk_replicate n) (noTrailWs_replicate n)]

end Parser

namespace RSS

theorem parse_foldl_shift (sp : RSSSpider) (feed : Feed) (l : List FeedEntry)
    (acc : List Item × List Request) :
    l.foldl (fun acc e =>
        (acc.1 ++ [itemOfEntry sp feed e], acc.2 ++ followupsOfEntry sp e)) acc =
      (acc.1 ++ l.map (itemOfEntry sp feed), acc.2 ++ l.flatMap (followupsOfEntry sp)) := by
  induction l generalizing acc with
  | nil => simp
  | cons e t ih => simp [ih, List.flatMap_cons]

/-- The items of `parse` are exactly one item per processed entry. -/
theorem parse_items_eq (sp : RSSSpider) (feed : Feed) :
    (sp.parse feed).1 = (entriesSlice sp feed).map (itemOfEntry sp feed) := by
  simp [RSSSpider.parse, parse_foldl_shift]

/-- The follow-up requests of `parse` are the concatenation of each
processed entry's follow-ups. -/
theorem parse_reqs_eq (sp : RSSSpider) (feed : Feed) :
    (sp.parse feed).2 = (entriesSlice sp feed).flatMap (followupsOfEntry sp) := by
  simp [RSSSpider.parse, parse_foldl_shift]

/-- The emitted body of an entry whose summary is a non-empty run of
the letter a is that summary with the trailing separator space appended
by `clean_text`: the emitted body is one character longer than the
summary. -/
theorem entryBody_replicate (n : Nat) (hn : n ≠ 0) :
    entryBody ⟨some "http://e/1", some "T", [],
        some (String.mk (List.replicate n 'a')), none, none, none, none, none⟩ =
      String.mk (List.replicate n 'a' ++ [' ']) := by
  have hne : String.mk (List.replicate n 'a') ≠ "" := by
    intro h
    have hd := congrArg String.data h
    simp only [List.replicate_eq_nil_iff] at hd
    exact hn hd
  have hstep : entryBody ⟨some "http://e/1", some "T", [],
        some (String.mk (List.replicate n 'a')), none, none, none, none, none⟩ =
      if String.mk (List.replicate n 'a') ≠ "" then
        Parser.clean_text (String.mk (List.replicate n 'a'))
      else String.mk (List.replicate n 'a') := rfl
  rw [hstep, if_pos hne]
  exact Parser.clean_text_replicate n hn

end RSS

namespace Pipelines

theorem countUrl_eq_zero_of_hasUrl_eq_false (rows : List ContentRow) (url : String)
    (h : hasUrl rows url = false) : countUrl rows url = 0 := by
  simp only [hasUrl, List.any_eq_false] at h
  simp only [countUrl, List.countP_eq_zero]
  intro a ha
  exact h a ha

/-- One `process_item` call preserves the per-URL row bound. -/
theorem process_item_countUrl_le (st : Stores) (it : Item) (uuid : String)
    (w : WriteOutcome) (url : String) (h : countUrl st.rows url ≤ 1) :
    countUrl (process_item st it uuid w).1.rows url ≤ 1 := by
  by_cases hdup : hasUrl st.rows it.url = true
  · simpa [process_item, hdup] using h
  · have hdup' : hasUrl st.rows it.url = false := by
      simpa using hdup
    cases w with
    | objectPutFails => simpa [process_item, hdup'] using h
    | dbInsertFails => simpa [process_item, hdup'] using h
    | committed =>
      have hrows : (process_item st it uuid .committed).1.rows =
          (⟨uuid, it.source, it.url, it.title, it.source ++ "/" ++ uuid ++ ".txt"⟩ :
            ContentRow) :: st.rows := by
        simp [process_item, hdup']
      rw [hrows]
      by_cases hu : it.url = url
      · have h0 : countUrl st.rows url = 0 := by
          apply countUrl_eq_zero_of_hasUrl_eq_false
          simpa [hu] using hdup'
        simp only [countUrl, List.countP_cons] at h0 ⊢
        simp [hu, h0]
      · simp only [countUrl, List.countP_cons] at h ⊢
        have : ((⟨uuid, it.source, it.url, it.title,
            it.source ++ "/" ++ uuid ++ ".txt"⟩ : ContentRow).url == url) = false := by
          simpa using hu
        simpa [this] using h

/-- Processing a sequence of calls preserves the per-URL row bound. -/
theorem processSeq_countUrl_le (calls : List Call) (st : Stores) (url : String)
    (h : countUrl st.rows url ≤ 1) :
    countUrl (processSeq st calls).rows url ≤ 1 := by
  induction calls generalizing st with
  | nil => simpa [processSeq] using h
  | cons c t ih =>
    have hstep : processSeq st (c :: t) =
        processSeq (process_item st c.item c.uuid c.outcome).1 t := by
      simp [processSeq]
    rw [hstep]
    exact ih _ (process_item_countUrl_le st c.item c.uuid c.outcome url h)

end Pipelines

/-! ## Claim theorems -/

/-- C1: for every URL, after any finite sequence of
`StoragePipeline.process_item` calls starting from empty stores, at
most one content row with that URL exists in the relational store; and
a `process_item` call whose item URL already has a row writes nothing
and returns false. -/
theorem c1_process_item_dedup :
    (∀ (calls : List Pipelines.Call) (url : String),
        Pipelines.countUrl
          (Pipelines.processSeq Pipelines.Stores.empty calls).rows url ≤ 1) ∧
    (∀ (st : Pipelines.Stores) (it : Item) (uuid : String)
        (w : Pipelines.WriteOutcome),
        Pipelines.hasUrl st.rows it.url = true →
        Pipelines.process_item st it uuid w = (st, false)) := by
  constructor
  · intro calls url
    exact Pipelines.processSeq_countUrl_le calls Pipelines.Stores.empty url
      (by simp [Pipelines.Stores.empty, Pipelines.countUrl])
  · intro st it uuid w h
    simp [Pipelines.process_item, h]

/-- Witness for C1: two calls with the same URL leave one row, and the
duplicate call on a store already holding the URL is the identity with
result false. -/
theorem c1_process_item_dedup_witness :
    Pipelines.countUrl
        (Pipelines.processSeq Pipelines.Stores.empty
          [⟨⟨"http://example.com/a", "T1", "B1", "src", none, none, []⟩, "u1", .committed⟩,
           ⟨⟨"http://example.com/a", "T2", "B2", "src", none, none, []⟩, "u2", .committed⟩]).rows
        "http://example.com/a" ≤ 1 ∧
    Pipelines.process_item
        ⟨[⟨"u1", "src", "http://example.com/a", "T1", "src/u1.txt"⟩],
          [("src/u1.txt", "B1")]⟩
        ⟨"http://example.com/a", "T2", "B2", "src", none, none, []⟩ "u2" .committed =
      (⟨[⟨"u1", "src", "http://example.com/a", "T1", "src/u1.txt"⟩],
          [("src/u1.txt", "B1")]⟩, false) :=
  ⟨c1_process_item_dedup.1 _ _, c1_process_item_dedup.2 _ _ _ _ (by decide)⟩

/-- C2: for a job registered through `add_job` with a (truthy) job id,
the wrapper sets the running flag on entry and clears it on exit whether
the wrapped function returns normally or raises, and `is_running` reads
exactly that flag. -/
theorem c2_wrapper_tracks_running (s : Scheduler.State) (id : String)
    (h : id ≠ "") (out : Scheduler.Outcome) :
    Scheduler.is_running (Scheduler.wrapperEnter s (some id)) id = true ∧
    Scheduler.is_running (Scheduler.trackedRun s (some id) out).1 id = false ∧
    (Scheduler.trackedRun s (some id) out).2 = out ∧
    (∀ s' : Scheduler.State,
        Scheduler.is_running s' id = dget s'.running_tasks id false) := by
  refine ⟨?_, ?_, rfl, fun s' => rfl⟩
  · simp [Scheduler.is_running, Scheduler.wrapperEnter, h, dget_dset_self]
  · simp [Scheduler.is_running, Scheduler.trackedRun, Scheduler.wrapperExit, h,
      dget_dset_self]

/-- Witness for C2 on a concrete job id, exercising the exceptional
exit. -/
theorem c2_wrapper_tracks_running_witness :
    Scheduler.is_running
        (Scheduler.wrapperEnter Scheduler.State.init (some "crawl_bbc")) "crawl_bbc" = true ∧
    Scheduler.is_running
        (Scheduler.trackedRun Scheduler.State.init (some "crawl_bbc") .exn).1 "crawl_bbc" =
      false :=
  ⟨(c2_wrapper_tracks_running Scheduler.State.init "crawl_bbc" (by decide) .exn).1,
   (c2_wrapper_tracks_running Scheduler.State.init "crawl_bbc" (by decide) .exn).2.1⟩

/-- C9: `add_job` with trigger cron and a string expression accepts it
exactly when it splits into five whitespace-separated fields, mapped in
order to minute, hour, day-of-month, month and day-of-week; any other
field count raises a ValueError, as does any trigger name outside cron,
interval and date. -/
theorem c9_add_job_cron_five_fields (s : Scheduler.State) (jobId : Option String)
    (expr : String) :
    ((∃ v, Scheduler.add_job s "cron" jobId (.str expr) = .ok v) ↔
        (Scheduler.pySplit expr).length = 5) ∧
    (∀ m h d mo dw, Scheduler.pySplit expr = [m, h, d, mo, dw] →
        Scheduler.add_job s "cron" jobId (.str expr) =
          .ok (Scheduler.addJobRegister s jobId, .cronStr ⟨m, h, d, mo, dw⟩)) ∧
    (∀ trigger cron, trigger ≠ "cron" → trigger ≠ "interval" → trigger ≠ "date" →
        Scheduler.add_job s trigger jobId cron =
          .error ("Unknown trigger type: " ++ trigger)) := by
  refine ⟨⟨?_, ?_⟩, ?_, ?_⟩
  · rintro ⟨v, hv⟩
    by_contra hlen
    rw [Scheduler.add_job, Scheduler.buildTrigger_cron_str_not5 expr hlen] at hv
    exact Except.noConfusion hv
  · intro hlen
    obtain ⟨m, h, d, mo, dw, hs⟩ : ∃ m h d mo dw,
        Scheduler.pySplit expr = [m, h, d, mo, dw] := by
      rcases hl : Scheduler.pySplit expr with _ | ⟨a, _ | ⟨b, _ | ⟨c, _ | ⟨d, _ | ⟨e, _ | ⟨f, t⟩⟩⟩⟩⟩⟩ <;>
        rw [hl] at hlen <;> simp at hlen
      · exact ⟨a, b, c, d, e, rfl⟩
    exact ⟨_, by rw [Scheduler.add_job, Scheduler.buildTrigger_cron_str5 expr m h d mo dw hs]⟩
  · intro m h d mo dw hs
    rw [Scheduler.add_job, Scheduler.buildTrigger_cron_str5 expr m h d mo dw hs]
  · intro trigger cron h1 h2 h3
    rw [Scheduler.add_job, Scheduler.buildTrigger_unknown trigger cron h1 h2 h3]

/-- Witness for C9: the five-field expression of the shipped site
configs is accepted with its fields in order, a three-field expression
is rejected, and a weekly trigger name is rejected. -/
theorem c9_add_job_cron_five_fields_witness :
    Scheduler.add_job Scheduler.State.init "cron" (some "crawl_bbc")
        (.str "*/10 * * * *") =
      .ok (Scheduler.addJobRegister Scheduler.State.init (some "crawl_bbc"),
        .cronStr ⟨"*/10", "*", "*", "*", "*"⟩) ∧
    (¬ ∃ v, Scheduler.add_job Scheduler.State.init "cron" (some "crawl_bbc")
        (.str "1 2 3") = .ok v) ∧
    Scheduler.add_job Scheduler.State.init "weekly" (some "crawl_bbc") .nonStr =
      .error ("Unknown trigger type: " ++ "weekly") := by
  refine ⟨?_, ?_, ?_⟩
  · exact (c9_add_job_cron_five_fields Scheduler.State.init (some "crawl_bbc")
      "*/10 * * * *").2.1 "*/10" "*" "*" "*" "*" (by decide)
  · intro hex
    have := (c9_add_job_cron_five_fields Scheduler.State.init (some "crawl_bbc")
      "1 2 3").1.mp hex
    revert this
    decide
  · exact (c9_add_job_cron_five_fields Scheduler.State.init (some "crawl_bbc")
      "1 2 3").2.2 "weekly" .nonStr (by decide) (by decide) (by decide)

/-- C10: `is_running` returns false for a job id never registered via
`add_job` (along any well-formed event trace from a fresh scheduler),
and returns false for a registered job from the completion of `add_job`
until the job function first begins executing. -/
theorem c10_is_running_false_outside_runs (id : String) :
    (∀ evs : List Scheduler.Event,
        Scheduler.wfFrom [] evs = true →
        Scheduler.neverRegisters evs id = true →
        Scheduler.is_running
          (Scheduler.runEvents Scheduler.State.init evs) id = false) ∧
    (∀ (s : Scheduler.State) (evs : List Scheduler.Event), id ≠ "" →
        (∀ e ∈ evs, e ≠ Scheduler.Event.beginRun id) →
        Scheduler.is_running
          (Scheduler.runEvents
            (Scheduler.applyEvent s (.register id)) evs) id = false) := by
  constructor
  · intro evs hwf hnr
    rw [Scheduler.is_running_runEvents_untouched evs [] Scheduler.State.init id rfl hwf hnr]
    rfl
  · intro s evs hne hnb
    exact Scheduler.is_running_false_preserved evs _ id
      (Scheduler.is_running_addJobRegister_self s id hne) hnb

/-- Witness for C10: a trace that registers and runs `crawl_bbc` leaves
an unrelated id not running, and a freshly registered id is not running
before its first run even while another job runs. -/
theorem c10_is_running_false_outside_runs_witness :
    Scheduler.is_running
        (Scheduler.runEvents Scheduler.State.init
          [.register "crawl_bbc", .beginRun "crawl_bbc"]) "crawl_cnn" = false ∧
    Scheduler.is_running
        (Scheduler.runEvents
          (Scheduler.applyEvent Scheduler.State.init (.register "crawl_cnn"))
          [.register "crawl_bbc", .beginRun "crawl_bbc", .endRun "crawl_bbc"])
        "crawl_cnn" = false :=
  ⟨(c10_is_running_false_outside_runs "crawl_cnn").1
      [.register "crawl_bbc", .beginRun "crawl_bbc"] (by decide) (by decide),
   (c10_is_running_false_outside_runs "crawl_cnn").2 Scheduler.State.init
      [.register "crawl_bbc", .beginRun "crawl_bbc", .endRun "crawl_bbc"]
      (by decide) (by decide)⟩

/-- C3 as stated is false on the code: the claim requires a
site-not-found error whenever the site is not among the loaded configs,
but with the scheduler singleton unset and an unknown site the call
fails with the scheduler-not-started error instead — the source checks
the singleton before it ever loads the configs. -/
theorem c3_cex_not_started_shadows_unknown_site :
    ("bbc" ∉ ([] : List String)) ∧
    SchedulerManager.trigger_manual_crawl none [] "bbc" "20260101000000" =
      .error .schedulerNotStarted ∧
    SchedulerManager.TMCError.schedulerNotStarted ≠
      SchedulerManager.TMCError.siteNotFound := by
  refine ⟨by simp, rfl, by decide⟩

/-- C3 amended: `trigger_manual_crawl` applies its checks in the
source's priority order — scheduler not started first, then the
already-running check on `crawl_<site>`, then the unknown-site check —
and otherwise registers a date-trigger one-shot job under
`manual_crawl_<site>_<timestamp>` and returns that id. -/
theorem c3_trigger_manual_crawl_cases (sched : Option Scheduler.State)
    (configs : List String) (site ts : String) :
    (sched = none →
      SchedulerManager.trigger_manual_crawl sched configs site ts =
        .error .schedulerNotStarted) ∧
    (∀ s, sched = some s →
      Scheduler.is_running s ("crawl_" ++ site) = true →
      SchedulerManager.trigger_manual_crawl sched configs site ts =
        .error .alreadyRunning) ∧
    (∀ s, sched = some s →
      Scheduler.is_running s ("crawl_" ++ site) = false →
      configs.contains site = false →
      SchedulerManager.trigger_manual_crawl sched configs site ts =
        .error .siteNotFound) ∧
    (∀ s, sched = some s →
      Scheduler.is_running s ("crawl_" ++ site) = false →
      configs.contains site = true →
      SchedulerManager.trigger_manual_crawl sched configs site ts =
        .ok ("manual_crawl_" ++ site ++ "_" ++ ts,
          Scheduler.addJobRegister s
            (some ("manual_crawl_" ++ site ++ "_" ++ ts)))) := by
  refine ⟨?_, ?_, ?_, ?_⟩
  · rintro rfl
    rfl
  · rintro s rfl hrun
    simp [SchedulerManager.trigger_manual_crawl, hrun]
  · rintro s rfl hrun hsite
    simp [SchedulerManager.trigger_manual_crawl, hrun]
    simpa using hsite
  · rintro s rfl hrun hsite
    simp [SchedulerManager.trigger_manual_crawl, hrun]
    simpa using hsite

/-- Witness for C3 amended: with a started scheduler, no running crawl
and a configured site, the manual trigger registers and returns the
timestamped job id. -/
theorem c3_trigger_manual_crawl_cases_witness :
    SchedulerManager.trigger_manual_crawl (some Scheduler.State.init)
        ["bbc"] "bbc" "20260101000000" =
      .ok ("manual_crawl_" ++ "bbc" ++ "_" ++ "20260101000000",
        Scheduler.addJobRegister Scheduler.State.init
          (some ("manual_crawl_" ++ "bbc" ++ "_" ++ "20260101000000"))) :=
  (c3_trigger_manual_crawl_cases (some Scheduler.State.init) ["bbc"] "bbc"
    "20260101000000").2.2.2 Scheduler.State.init rfl (by decide) (by decide)

/-- C6: the claim matches the spec and the repo's own unit test
(`tests/unit/test_rss_spider.py`, `test_seeds`), but not the code:
`seeds` returns a single request for the configured feed URL whose
metadata carries only the source key — it has no `is_feed` binding, so
the test's `metadata["is_feed"] is True` assertion cannot hold. -/
theorem c6_seeds_metadata_lacks_is_feed :
    RSS.RSSSpider.seeds ⟨"test_source", "http://example.com/feed.xml", none, false⟩ =
      [{ url := "http://example.com/feed.xml", method := "GET",
         metadata := [("source", MetaVal.str "test_source")] }] ∧
    List.lookup "is_feed" [("source", MetaVal.str "test_source")] = none := by
  exact ⟨rfl, rfl⟩

/-- C4 as stated is false on the code: an entry missing both link and
title is not skipped — `entry.get` supplies defaults and nothing
raises — so a feed of three valid entries and one such malformed entry
yields four items, the last with empty URL and the default title. -/
theorem c4_cex_malformed_entry_not_skipped :
    (let sp : RSS.RSSSpider := ⟨"bbc", "http://f/feed", none, false⟩
     let feed : RSS.Feed :=
       ⟨[⟨some "http://e/1", some "A1", [], some "Body one", none, none, none, none, none⟩,
         ⟨some "http://e/2", some "A2", [], some "Body two", none, none, none, none, none⟩,
         ⟨some "http://e/3", some "A3", [], some "Body three", none, none, none, none, none⟩,
         ⟨none, none, [], some "Content", none, none, none, none, none⟩], "F", "http://f"⟩
     (sp.parse feed).1.length = 4 ∧ (sp.parse feed).1.length ≠ 3 ∧
       (sp.parse feed).1.map (fun it => (it.url, it.title)) =
         [("http://e/1", "A1"), ("http://e/2", "A2"), ("http://e/3", "A3"),
          ("", "No title")]) := by
  decide

/-- C4 amended: `parse` emits one item per processed entry and skips
nothing; an entry missing both link and title yields an item with empty
URL and the default title No title, with no exception propagated (the
embedded per-entry processing is total).  Three valid entries plus one
such malformed entry hence yield four items, not three. -/
theorem c4_parse_emits_item_per_entry (sp : RSS.RSSSpider) (feed : RSS.Feed)
    (hmax : sp.max_items = none) :
    (sp.parse feed).1.length = feed.entries.length ∧
    (∀ e ∈ feed.entries, e.link = none → e.title = none →
      (RSS.itemOfEntry sp feed e).url = "" ∧
      (RSS.itemOfEntry sp feed e).title = "No title" ∧
      RSS.itemOfEntry sp feed e ∈ (sp.parse feed).1) := by
  have hs : RSS.entriesSlice sp feed = feed.entries := by
    simp [RSS.entriesSlice, hmax]
  constructor
  · rw [RSS.parse_items_eq, hs, List.length_map]
  · intro e he hl ht
    refine ⟨by simp [RSS.itemOfEntry, RSS.entryUrl, hl],
            by simp [RSS.itemOfEntry, ht], ?_⟩
    rw [RSS.parse_items_eq, hs]
    exact List.mem_map_of_mem _ he

/-- Witness for C4 amended on the three-valid-one-malformed feed. -/
theorem c4_parse_emits_item_per_entry_witness :
    (RSS.RSSSpider.parse ⟨"bbc", "http://f/feed", none, false⟩
      ⟨[⟨some "http://e/1", some "A1", [], some "Body one", none, none, none, none, none⟩,
        ⟨some "http://e/2", some "A2", [], some "Body two", none, none, none, none, none⟩,
        ⟨some "http://e/3", some "A3", [], some "Body three", none, none, none, none, none⟩,
        ⟨none, none, [], some "Content", none, none, none, none, none⟩],
       "F", "http://f"⟩).1.length = 4 ∧
    RSS.itemOfEntry ⟨"bbc", "http://f/feed", none, false⟩
      ⟨[⟨some "http://e/1", some "A1", [], some "Body one", none, none, none, none, none⟩,
        ⟨some "http://e/2", some "A2", [], some "Body two", none, none, none, none, none⟩,
        ⟨some "http://e/3", some "A3", [], some "Body three", none, none, none, none, none⟩,
        ⟨none, none, [], some "Content", none, none, none, none, none⟩],
       "F", "http://f"⟩
      ⟨none, none, [], some "Content", none, none, none, none, none⟩ ∈
    (RSS.RSSSpider.parse ⟨"bbc", "http://f/feed", none, false⟩
      ⟨[⟨some "http://e/1", some "A1", [], some "Body one", none, none, none, none, none⟩,
        ⟨some "http://e/2", some "A2", [], some "Body two", none, none, none, none, none⟩,
        ⟨some "http://e/3", some "A3", [], some "Body three", none, none, none, none, none⟩,
        ⟨none, none, [], some "Content", none, none, none, none, none⟩],
       "F", "http://f"⟩).1 := by
  have h := c4_parse_emits_item_per_entry ⟨"bbc", "http://f/feed", none, false⟩
    ⟨[⟨some "http://e/1", some "A1", [], some "Body one", none, none, none, none, none⟩,
      ⟨some "http://e/2", some "A2", [], some "Body two", none, none, none, none, none⟩,
      ⟨some "http://e/3", some "A3", [], some "Body three", none, none, none, none, none⟩,
      ⟨none, none, [], some "Content", none, none, none, none, none⟩],
     "F", "http://f"⟩ rfl
  refine ⟨by rw [h.1]; rfl, ?_⟩
  exact (h.2 ⟨none, none, [], some "Content", none, none, none, none, none⟩
    (by decide) rfl rfl).2.2

/-- C5: for every processed entry, a follow-up request to the entry URL
tagged `fetch_full` is emitted exactly when full-content fetching is
enabled, the entry has a URL, and the emitted body is strictly shorter
than 500 characters; an emitted body of exactly 500 characters produces
no follow-up request. -/
theorem c5_followup_iff (sp : RSS.RSSSpider) (feed : RSS.Feed) (r : Request)
    (hmax : sp.max_items = none) :
    r ∈ (sp.parse feed).2 ↔
      ∃ e ∈ feed.entries,
        sp.fetch_full_content = true ∧ RSS.entryUrl e ≠ "" ∧
        (RSS.entryBody e).length < 500 ∧
        r = { url := RSS.entryUrl e, method := "GET",
              metadata := [("source", .str sp.source_name),
                           ("fetch_full", .bool true)] } := by
  rw [RSS.parse_reqs_eq]
  have hs : RSS.entriesSlice sp feed = feed.entries := by
    simp [RSS.entriesSlice, hmax]
  rw [hs]
  simp only [List.mem_flatMap]
  constructor
  · rintro ⟨e, he, hr⟩
    refine ⟨e, he, ?_⟩
    by_cases hc : sp.fetch_full_content = true ∧ RSS.entryUrl e ≠ "" ∧
        (RSS.entryBody e).length < 500
    · obtain ⟨h1, h2, h3⟩ := hc
      rw [RSS.followupsOfEntry, if_pos ⟨h1, h2, h3⟩] at hr
      simp only [List.mem_singleton] at hr
      exact ⟨h1, h2, h3, hr⟩
    · rw [RSS.followupsOfEntry, if_neg hc] at hr
      simp at hr
  · rintro ⟨e, he, h1, h2, h3, rfl⟩
    refine ⟨e, he, ?_⟩
    rw [RSS.followupsOfEntry, if_pos ⟨h1, h2, h3⟩]
    simp

/-- Witness for C5 at the true boundary: with full-content fetching
enabled, a 498-character summary gives a 499-character emitted body
(`clean_text` appends the trailing separator) and yields the tagged
follow-up request, while a 499-character summary gives a 500-character
emitted body and yields no follow-up at all. -/
theorem c5_followup_iff_witness :
    ({ url := "http://e/1", method := "GET",
       metadata := [("source", MetaVal.str "src"), ("fetch_full", MetaVal.bool true)] } :
        Request) ∈
      (RSS.RSSSpider.parse ⟨"src", "http://f/feed", none, true⟩
        ⟨[⟨some "http://e/1", some "T", [],
           some (String.mk (List.replicate 498 'a')), none, none, none, none, none⟩],
         "", ""⟩).2 ∧
    (∀ r : Request,
      r ∉ (RSS.RSSSpider.parse ⟨"src", "http://f/feed", none, true⟩
        ⟨[⟨some "http://e/1", some "T", [],
           some (String.mk (List.replicate 499 'a')), none, none, none, none, none⟩],
         "", ""⟩).2) := by
  constructor
  · apply (c5_followup_iff ⟨"src", "http://f/feed", none, true⟩
      ⟨[⟨some "http://e/1", some "T", [],
         some (String.mk (List.replicate 498 'a')), none, none, none, none, none⟩],
       "", ""⟩ _ rfl).2
    refine ⟨⟨some "http://e/1", some "T", [],
        some (String.mk (List.replicate 498 'a')), none, none, none, none, none⟩,
      List.mem_singleton.mpr rfl, rfl, by decide, ?_, rfl⟩
    rw [RSS.entryBody_replicate 498 (by decide)]
    have hlen : (String.mk (List.replicate 498 'a' ++ [' '])).length =
        (List.replicate 498 'a' ++ [' ']).length := rfl
    rw [hlen, List.length_append, List.length_replicate]
    decide
  · intro r hmem
    have h := (c5_followup_iff ⟨"src", "http://f/feed", none, true⟩
      ⟨[⟨some "http://e/1", some "T", [],
         some (String.mk (List.replicate 499 'a')), none, none, none, none, none⟩],
       "", ""⟩ r rfl).1 hmem
    obtain ⟨e, hmem2, h1, h2, h3, hr⟩ := h
    rw [List.mem_singleton] at hmem2
    subst hmem2
    rw [RSS.entryBody_replicate 499 (by decide)] at h3
    have hlen : (String.mk (List.replicate 499 'a' ++ [' '])).length =
        (List.replicate 499 'a' ++ [' ']).length := rfl
    rw [hlen, List.length_append, List.length_replicate] at h3
    simp only [List.length_singleton] at h3
    omega

/-- C7 as stated is false on the code: the crawl-trigger endpoint and
the Prefect manager perform no already-running check — with the site
configured and a crawl for it in flight, the request is processed like
any other and answers 200, never 409. -/
theorem c7_cex_running_site_not_409 :
    ("bbc" ∈ ["bbc"]) ∧
    PrefectManager.trigger_crawl ["bbc"] ["bbc"] "bbc" (some "run-1") =
      .success ⟨"Crawl task started for " ++ "bbc", "bbc", "run-1"⟩ ∧
    PrefectManager.statusOf
        (PrefectManager.trigger_crawl ["bbc"] ["bbc"] "bbc" (some "run-1")) = 200 := by
  refine ⟨by decide, rfl, rfl⟩

/-- C7 amended: the endpoint answers 404 for an unknown site and
otherwise forwards the flow result — 200 with message, site and
flow_run_id on success, 500 when the flow yields no run id; no 409 is
ever produced, and the response does not depend on which crawls are
running. -/
theorem c7_trigger_crawl_cases (configs runningSites : List String)
    (site : String) (flowResult : Option String) :
    (configs.contains site = false →
      PrefectManager.trigger_crawl configs runningSites site flowResult =
        .failure 404 ("Site " ++ site ++ " not found")) ∧
    (configs.contains site = true → ∀ fid, flowResult = some fid →
      PrefectManager.trigger_crawl configs runningSites site flowResult =
        .success ⟨"Crawl task started for " ++ site, site, fid⟩) ∧
    (configs.contains site = true → flowResult = none →
      PrefectManager.trigger_crawl configs runningSites site flowResult =
        .failure 500 "Failed to get flow run ID from flow execution") ∧
    PrefectManager.statusOf
        (PrefectManager.trigger_crawl configs runningSites site flowResult) ≠ 409 ∧
    PrefectManager.trigger_crawl configs runningSites site flowResult =
      PrefectManager.trigger_crawl configs [] site flowResult := by
  refine ⟨?_, ?_, ?_, ?_, rfl⟩
  · intro hc
    have hmem : site ∉ configs := by simpa using hc
    simp [PrefectManager.trigger_crawl, PrefectManager.trigger_manual_crawl, hmem]
  · rintro hc fid rfl
    have hmem : site ∈ configs := by simpa using hc
    simp [PrefectManager.trigger_crawl, PrefectManager.trigger_manual_crawl, hmem]
  · rintro hc rfl
    have hmem : site ∈ configs := by simpa using hc
    simp [PrefectManager.trigger_crawl, PrefectManager.trigger_manual_crawl, hmem]
  · by_cases hmem : site ∈ configs
    · cases flowResult with
      | some fid =>
        simp [PrefectManager.trigger_crawl, PrefectManager.trigger_manual_crawl,
          hmem, PrefectManager.statusOf]
      | none =>
        simp [PrefectManager.trigger_crawl, PrefectManager.trigger_manual_crawl,
          hmem, PrefectManager.statusOf]
    · simp [PrefectManager.trigger_crawl, PrefectManager.trigger_manual_crawl,
        hmem, PrefectManager.statusOf]

/-- Witness for C7 amended: a configured site with a successful flow
run answers 200 with the body fields, and an unknown site answers
404. -/
theorem c7_trigger_crawl_cases_witness :
    PrefectManager.trigger_crawl ["bbc"] ["bbc"] "bbc" (some "run-1") =
      .success ⟨"Crawl task started for " ++ "bbc", "bbc", "run-1"⟩ ∧
    PrefectManager.trigger_crawl ["bbc"] [] "cnn" none =
      .failure 404 ("Site " ++ "cnn" ++ " not found") :=
  ⟨(c7_trigger_crawl_cases ["bbc"] ["bbc"] "bbc" (some "run-1")).2.1 (by decide)
      "run-1" rfl,
   (c7_trigger_crawl_cases ["bbc"] [] "cnn" none).1 (by decide)⟩

/-- C8 as stated is false on the code: `clean_text` decodes HTML
character references while extracting text, so a first pass over text
containing the encoded reference amp-lt leaves a string whose second
pass decodes further — the function is not idempotent.  Each output
carries the trailing separator space that `body.text(separator=' ',
strip=True)` appends after every text node. -/
theorem c8_cex_clean_text_not_idempotent :
    Parser.clean_text "x &amp;lt; y" = "x &lt; y " ∧
    Parser.clean_text (Parser.clean_text "x &amp;lt; y") = "x < y " ∧
    Parser.clean_text (Parser.clean_text "x &amp;lt; y") ≠
      Parser.clean_text "x &amp;lt; y" := by
  decide

/-- C8 amended: `clean_text` is idempotent on every markup-free input —
one containing no tag opener and no ampersand.  Cleaning such input
reduces to stripping the single text run and appending the trailing
separator space, and a second pass removes exactly that separator
before appending it again. -/
theorem c8_clean_text_idempotent_on_markup_free (h : String)
    (hp : Parser.noMarkup h = true) :
    Parser.clean_text (Parser.clean_text h) = Parser.clean_text h := by
  have hp2 := Parser.noMarkup_clean_text_of_noMarkup h hp
  by_cases he : h.data.isEmpty = true
  · have h1 : Parser.clean_text h = "" := by
      rw [Parser.clean_text_of_noMarkup h hp, if_pos he]
    rw [h1, Parser.clean_text_of_noMarkup "" (by decide)]
    rfl
  · have h1 : Parser.clean_text h = String.mk (Parser.stripL h.data ++ [' ']) := by
      rw [Parser.clean_text_of_noMarkup h hp, if_neg he]
    rw [h1] at hp2 ⊢
    have hne : ((Parser.stripL h.data ++ [' ']).isEmpty = true) → False := by
      simp
    rw [Parser.clean_text_of_noMarkup _ hp2, if_neg hne]
    have h3 : Parser.stripL (String.mk (Parser.stripL h.data ++ [' '])).data =
        Parser.stripL h.data :=
      Parser.stripL_append_space (Parser.stripL h.data) (Parser.stripL_idem h.data)
    rw [h3]

/-- Witness for C8 amended on a markup-free text with irregular
whitespace. -/
theorem c8_clean_text_idempotent_on_markup_free_witness :
    Parser.noMarkup " Hello   world " = true ∧
    Parser.clean_text (Parser.clean_text " Hello   world ") =
      Parser.clean_text " Hello   world " :=
  ⟨by decide,
   c8_clean_text_idempotent_on_markup_free " Hello   world " (by decide)⟩

end Leobrain
